import Mathlib

/-!
Shallow embedding of the sqs client library (src/unnamed/part_001) in Lean 4.

The JS module keeps two pieces of module-level mutable state: the AWS client
handle `sqs` (null until `init` is called) and the queue-url cache `queueUrls`.
We model that state explicitly as `SqsState` and thread it through every
operation.  Remote SQS itself (the external collaborator) is modelled as
`RemoteWorld`: the set of existing queues with their urls.  Every remote call
and every diagnostic emitted through the module's EventEmitter is recorded in
an event trace (`Ev`), so claims about "issues a remote call" or "emits a
diagnostic" become statements about the trace.

JS promise rejections and synchronous throws are both modelled with
`Except String`.  JS truthiness of the cached url string (`!queueUrls[q]`)
is modelled by `truthy`.  Message bodies are carried as opaque strings; the
external JSON codec's outcome on a wire body is modelled by `WireBody`
(a body either parses to a value or is malformed), since the claims depend
only on parse success or failure, not on the JSON grammar.
-/

namespace Sqs

/-- Module-level mutable state of the JS module: the client handle `sqs`
(modelled as a Bool: initialized or not) and the url cache `queueUrls`
(an association list, most recent write first, modelling the JS object). -/
structure SqsState where
  sqs : Bool
  queueUrls : List (String × String)
deriving Repr, DecidableEq

/-- The external SQS service: which queues exist, and their urls. -/
structure RemoteWorld where
  queues : List (String × String)
deriving Repr, DecidableEq

/-- Trace events: remote calls issued and diagnostics emitted via the
EventEmitter (`eventEmitter.emit` with level and message). -/
inductive Ev where
  | lookup (queueName : String)
  | logE (level : String) (message : String)
  | createE (queueName : String) (attributes : List (String × String))
  | sendE (queueUrl : Option String) (messageBody : String)
  | receiveE (queueUrl : String) (maxNumberOfMessages : Int) (waitTimeSeconds : Int)
  | deleteE (queueUrl : String) (receiptHandle : String)
deriving Repr, DecidableEq

def isLookupEv : Ev → Bool
  | .lookup _ => true
  | _ => false

def isCreateEv : Ev → Bool
  | .createE _ _ => true
  | _ => false

def isReceiveEv : Ev → Bool
  | .receiveE _ _ _ => true
  | _ => false

def isDeleteEv : Ev → Bool
  | .deleteE _ _ => true
  | _ => false

def isErrorLogEv : Ev → Bool
  | .logE level _ => level == "error"
  | _ => false

/-- Lookup in an association list, modelling JS object property access
`obj[key]` (undefined becomes `none`). -/
def lookupCache (cache : List (String × String)) (k : String) : Option String :=
  match cache.find? (fun p => p.1 == k) with
  | some p => some p.2
  | none => none

/-- JS truthiness of a string-or-undefined value: undefined and the empty
string are falsy. -/
def truthy : Option String → Bool
  | none => false
  | some s => if s = "" then false else true

/-- Embeds `init(options)` (part_001 lines 14-17): sets the client handle.
The AWS client configuration itself is external; only the fact that the
handle is now non-null matters to the module. -/
def init (st : SqsState) : SqsState :=
  { st with sqs := true }

/-- Embeds `reset()` (part_001 lines 24-26): sets the client handle to null.
The cache `queueUrls` is not touched. -/
def reset (st : SqsState) : SqsState :=
  { st with sqs := false }

/-- Embeds `getUrl(queueName)` (part_001 lines 44-62).
Returns the queue url, `none` when not found.  Throws synchronously when
`init` was not called.  On a cache miss it issues a remote
`getQueueUrlAsync` lookup (the `Ev.lookup` event); on remote success the
url is stored in the cache, on remote failure a debug diagnostic is emitted
and the failure is not cached.  The JS template-string quotes around the
queue name are elided from the diagnostic text. -/
def getUrl (w : RemoteWorld) (st : SqsState) (queueName : String) :
    Except String (Option String) × SqsState × List Ev :=
  if st.sqs = false then
    (.error "Must call init(...) first", st, [])
  else if queueName = "" then
    (.ok none, st, [])
  else if truthy (lookupCache st.queueUrls queueName) = false then
    match lookupCache w.queues queueName with
    | some url =>
        (.ok (some url), { st with queueUrls := (queueName, url) :: st.queueUrls },
          [.lookup queueName])
    | none =>
        (.ok none, st,
          [.lookup queueName,
           .logE "debug" ("Queue " ++ queueName ++ " could not be found")])
  else
    (.ok (lookupCache st.queueUrls queueName), st, [])

/-- Iterates `getUrl` n times from a given state, collecting the events of
all calls (used to state the caching claims about repeated calls). -/
def iterGetUrl (w : RemoteWorld) (queueName : String) : Nat → SqsState → SqsState × List Ev
  | 0, st => (st, [])
  | Nat.succ n, st =>
      ((iterGetUrl w queueName n (getUrl w st queueName).2.1).1,
       (getUrl w st queueName).2.2 ++
         (iterGetUrl w queueName n (getUrl w st queueName).2.1).2)

/-- Models the external service assigning a url to a newly created queue
(the QueueUrl field of the `createQueueAsync` response).  Nonempty by
construction. -/
def mkUrl (queueName : String) : String :=
  "https://sqs.example.com/" ++ queueName

/-- Embeds `createQueue(queueName, attributes = {})` (part_001 lines 86-110).
Emits the "Creating" info diagnostic, resolves the queue; when the url is
truthy it emits the "already exists" info diagnostic and returns the
existing url without a remote create; otherwise it issues the remote
`createQueueAsync` call (the `Ev.createE` event, which adds the queue to the
remote world) and emits the "Created" info diagnostic.  The AWS create
response is modelled by the url the service assigns.  Note the cache is not
updated by the create itself, matching the source. -/
def createQueue (w : RemoteWorld) (st : SqsState) (queueName : String)
    (attributes : List (String × String)) :
    Except String String × RemoteWorld × SqsState × List Ev :=
  match getUrl w st queueName with
  | (.error e, st1, ev1) =>
      (.error e, w, st1, Ev.logE "info" ("Creating SQS queue " ++ queueName) :: ev1)
  | (.ok queueUrl, st1, ev1) =>
      if truthy queueUrl then
        (.ok (queueUrl.getD ""), w, st1,
          Ev.logE "info" ("Creating SQS queue " ++ queueName) :: ev1 ++
            [.logE "info" ("SQS queue " ++ queueName ++ " already exists")])
      else
        (.ok (mkUrl queueName),
          { queues := (queueName, mkUrl queueName) :: w.queues }, st1,
          Ev.logE "info" ("Creating SQS queue " ++ queueName) :: ev1 ++
            [.createE queueName attributes,
             .logE "info" ("Created SQS queue " ++ queueName)])

/-- Embeds `sendMessage(queueName, messageBody)` (part_001 lines 115-124).
Resolves the url, emits the debug diagnostic, and issues the remote
`sendMessageAsync` call with whatever url resolution produced — there is no
null check, so a `none` url is passed straight through to the remote call
(the remote acknowledgment is abstracted to `Unit`; a remote-layer failure
caused by the null url is outside the module).  Serialization of the body by
the external JSON codec is carried opaquely. -/
def sendMessage (w : RemoteWorld) (st : SqsState) (queueName : String)
    (messageBody : String) : Except String Unit × SqsState × List Ev :=
  match getUrl w st queueName with
  | (.error e, st1, ev1) => (.error e, st1, ev1)
  | (.ok queueUrl, st1, ev1) =>
      (.ok (), st1,
        ev1 ++ [.logE "debug" ("Sending message to queue " ++ queueName),
                .sendE queueUrl messageBody])

/-- Outcome of the external JSON codec on a received wire body: it either
parses to a structured value (carried opaquely as a string) or is
malformed. -/
inductive WireBody where
  | valid (v : String)
  | malformed (s : String)
deriving Repr, DecidableEq

/-- A raw wire message as returned by the remote `receiveMessageAsync`. -/
structure RawMsg where
  MessageId : String
  ReceiptHandle : String
  Body : WireBody
deriving Repr, DecidableEq

/-- A decoded message handed to consumers: receipt handle plus parsed body. -/
structure Msg where
  ReceiptHandle : String
  Body : String
deriving Repr, DecidableEq

/-- Models `JSON.parse` applied to a wire body: the codec's outcome. -/
def jsonParse : WireBody → Option String
  | .valid v => some v
  | .malformed _ => none

/-- Embeds the decode loop inside `receiveMessages` (part_001 lines 144-159):
each raw message whose body parses contributes a `{ReceiptHandle, Body}`
record, in order; each malformed body emits an error diagnostic and is
dropped. -/
def decodeMessages : List RawMsg → List Msg × List Ev
  | [] => ([], [])
  | m :: rest =>
      match jsonParse m.Body with
      | some b =>
          (⟨m.ReceiptHandle, b⟩ :: (decodeMessages rest).1, (decodeMessages rest).2)
      | none =>
          ((decodeMessages rest).1,
            Ev.logE "error" "Not a valid JSON SQS message, ignore it" ::
              (decodeMessages rest).2)

/-- Poll/receive options (part_001 uses plain JS objects; absent fields are
`none`).  `Int` fields so that out-of-range and negative values can be
passed through, as in JS. -/
structure PollOptions where
  maxMessages : Option Int := none
  waitTimeSeconds : Option Int := none
  stopWhenDepleted : Option Bool := none
deriving Repr, DecidableEq

/-- Embeds `(options.maxMessages) ? options.maxMessages : 1` (part_001
line 135): JS truthiness, so absent or zero falls back to 1; every other
value passes through unchanged. -/
def optMax (options : PollOptions) : Int :=
  match options.maxMessages with
  | some n => if n = 0 then 1 else n
  | none => 1

/-- Embeds `(options.waitTimeSeconds) ? options.waitTimeSeconds : 1`
(part_001 line 136): absent or zero falls back to 1; every other value
passes through unchanged. -/
def optWait (options : PollOptions) : Int :=
  match options.waitTimeSeconds with
  | some n => if n = 0 then 1 else n
  | none => 1

/-- Embeds `receiveMessages(queueName, options = {})` (part_001 lines
129-162).  The remote `receiveMessageAsync` answer is the explicit input
`raw` (`none` models an answer with no `Messages` field).  Throws when the
queue url cannot be resolved, before any remote receive.  On messages, emits
the "Received N" debug diagnostic and decodes the batch. -/
def receiveMessages (w : RemoteWorld) (st : SqsState) (queueName : String)
    (options : PollOptions) (raw : Option (List RawMsg)) :
    Except String (List Msg) × SqsState × List Ev :=
  match getUrl w st queueName with
  | (.error e, st1, ev1) => (.error e, st1, ev1)
  | (.ok none, st1, ev1) =>
      (.error ("Unable to find SQS queue " ++ queueName), st1, ev1)
  | (.ok (some url), st1, ev1) =>
      match raw with
      | none => (.ok [], st1, ev1 ++ [.receiveE url (optMax options) (optWait options)])
      | some messages =>
          (.ok (decodeMessages messages).1, st1,
            ev1 ++ [.receiveE url (optMax options) (optWait options),
                    .logE "debug" ("Received " ++ toString messages.length ++
                      " message(s) from queue " ++ queueName)] ++
              (decodeMessages messages).2)

/-- Embeds `deleteMessage(queueName, receiptHandle)` (part_001 lines
169-179).  Throws when the queue url cannot be resolved, before any remote
delete; otherwise issues the remote `deleteMessageAsync` call. -/
def deleteMessage (w : RemoteWorld) (st : SqsState) (queueName : String)
    (receiptHandle : String) : Except String Unit × SqsState × List Ev :=
  match getUrl w st queueName with
  | (.error e, st1, ev1) => (.error e, st1, ev1)
  | (.ok none, st1, ev1) =>
      (.error ("Unable to find SQS queue " ++ queueName), st1, ev1)
  | (.ok (some url), st1, ev1) =>
      (.ok (), st1, ev1 ++ [.deleteE url receiptHandle])

/-- JS values a handler promise can resolve to, as far as the poll loop can
distinguish them: the literal `false` (the stop sentinel checked with
`result === false`), `undefined` (what the catch branch evaluates to), and
anything else. -/
inductive JsVal where
  | jsFalse
  | jsUndefined
  | jsOther (tag : String)
deriving Repr, DecidableEq

/-- The handler's promise either resolves to a value or rejects with an
error. -/
inductive HandlerOutcome where
  | resolved (v : JsVal)
  | rejected (e : String)
deriving Repr, DecidableEq

/-- An element of a JS array handed to `Promise.all`: either a plain message
object or a promise (identified by a token). -/
inductive JsItem where
  | msgVal (m : Msg)
  | promiseVal (id : Nat)
deriving Repr, DecidableEq

/-- `Promise.all(xs)` awaits exactly the promises among the elements of
`xs`; plain objects are passed through without awaiting anything.  Returns
the tokens of the promises awaited. -/
def promiseAll (xs : List JsItem) : List Nat :=
  xs.filterMap fun x =>
    match x with
    | .promiseVal i => some i
    | .msgVal _ => none

/-- Embeds the `messages.forEach(m => promises.push(deleteMessage(...)))`
loop of `processMessages` (part_001 line 190): every delete call is issued
immediately (its events recorded, the cache threaded); the receipt handles
of the successfully issued deletes are collected.  A delete whose promise
rejects (queue not resolvable) contributes its resolution events but no
remote delete; its rejection is never awaited by the source. -/
def issueDeletes (w : RemoteWorld) (st : SqsState) (queueName : String) :
    List Msg → SqsState × List Ev × List String
  | [] => (st, [], [])
  | m :: rest =>
      match deleteMessage w st queueName m.ReceiptHandle with
      | (.ok _, st1, ev1) =>
          ((issueDeletes w st1 queueName rest).1,
           ev1 ++ (issueDeletes w st1 queueName rest).2.1,
           m.ReceiptHandle :: (issueDeletes w st1 queueName rest).2.2)
      | (.error _, st1, ev1) =>
          ((issueDeletes w st1 queueName rest).1,
           ev1 ++ (issueDeletes w st1 queueName rest).2.1,
           (issueDeletes w st1 queueName rest).2.2)

/-- Result of one `processMessages` call: the value the returned promise
resolves with, the state and events produced synchronously, the receipt
handles whose remote delete was issued, and the tokens of the delete
promises that were awaited before the result was returned. -/
structure ProcOut where
  result : JsVal
  st : SqsState
  events : List Ev
  deletesIssued : List String
  deletesAwaited : List Nat
deriving Repr, DecidableEq

/-- Embeds `processMessages(queueName, handler, messages)` (part_001 lines
187-195).  When the handler resolves, every message's delete is issued and
the source then returns `Promise.all(messages).then(() => result)` — note
the argument is `messages` (the plain message objects), not the `promises`
array, so `deletesAwaited` is whatever `Promise.all` awaits in a list of
plain message objects.  When the handler rejects, the catch branch emits an
error diagnostic and the promise resolves to `undefined` with no deletes. -/
def processMessages (w : RemoteWorld) (st : SqsState) (queueName : String)
    (handler : List Msg → HandlerOutcome) (messages : List Msg) : ProcOut :=
  match handler messages with
  | .resolved result =>
      { result := result
        st := (issueDeletes w st queueName messages).1
        events := (issueDeletes w st queueName messages).2.1
        deletesIssued := (issueDeletes w st queueName messages).2.2
        deletesAwaited := promiseAll (messages.map JsItem.msgVal) }
  | .rejected e =>
      { result := .jsUndefined
        st := st
        events := [.logE "error" e]
        deletesIssued := []
        deletesAwaited := [] }

/-- How one poll iteration ends: resolve (return null) or loop again. -/
inductive StepOut where
  | stop
  | cont
deriving Repr, DecidableEq

/-- Everything one poll iteration produced. -/
structure StepRes where
  outcome : Except String StepOut
  st : SqsState
  events : List Ev
  deletesIssued : List String
  deletesAwaited : List Nat
deriving Repr

/-- Embeds the body of one `poll` iteration (part_001 lines 202-217):
receive a batch, emit the "Received N on queue" debug diagnostic; on a
non-empty batch run `processMessages` and stop (after the "Stopped polling"
debug diagnostic) exactly when the result is the literal `false`; on an
empty batch stop when `options.stopWhenDepleted === true`, else loop. -/
def pollStep (w : RemoteWorld) (st : SqsState) (queueName : String)
    (handler : List Msg → HandlerOutcome) (options : PollOptions)
    (raw : Option (List RawMsg)) : StepRes :=
  match receiveMessages w st queueName options raw with
  | (.error e, st1, ev1) =>
      { outcome := .error e, st := st1, events := ev1
        deletesIssued := [], deletesAwaited := [] }
  | (.ok messages, st1, ev1) =>
      let ev2 := ev1 ++ [Ev.logE "debug" ("Received " ++ toString messages.length ++
        " message(s) on SQS queue " ++ queueName)]
      if messages.length > 0 then
        let p := processMessages w st1 queueName handler messages
        if p.result = JsVal.jsFalse then
          { outcome := .ok .stop, st := p.st
            events := ev2 ++ p.events ++
              [.logE "debug" ("Stopped polling SQS queue " ++ queueName)]
            deletesIssued := p.deletesIssued, deletesAwaited := p.deletesAwaited }
        else
          { outcome := .ok .cont, st := p.st, events := ev2 ++ p.events
            deletesIssued := p.deletesIssued, deletesAwaited := p.deletesAwaited }
      else if messages.length = 0 ∧ options.stopWhenDepleted = some true then
        { outcome := .ok .stop, st := st1, events := ev2
          deletesIssued := [], deletesAwaited := [] }
      else
        { outcome := .ok .cont, st := st1, events := ev2
          deletesIssued := [], deletesAwaited := [] }

/-- Embeds the recursive `poll(queueName, handler, options = {})` (part_001
lines 201-218) over an explicit stream of remote receive answers, one per
iteration.  `some (result, state, trace)` means the loop terminated (either
resolving to null or rejecting) within the supplied answers; `none` means it
was still looping when the answers ran out. -/
def poll (w : RemoteWorld) (st : SqsState) (queueName : String)
    (handler : List Msg → HandlerOutcome) (options : PollOptions) :
    List (Option (List RawMsg)) → Option (Except String Unit × SqsState × List Ev)
  | [] => none
  | raw :: rest =>
      match (pollStep w st queueName handler options raw).outcome with
      | .error e =>
          some (.error e, (pollStep w st queueName handler options raw).st,
            (pollStep w st queueName handler options raw).events)
      | .ok .stop =>
          some (.ok (), (pollStep w st queueName handler options raw).st,
            (pollStep w st queueName handler options raw).events)
      | .ok .cont =>
          match poll w (pollStep w st queueName handler options raw).st queueName
              handler options rest with
          | none => none
          | some (res, st2, ev2) =>
              some (res, st2, (pollStep w st queueName handler options raw).events ++ ev2)

/-! ### Helper lemmas -/

theorem truthy_some_of_ne (u : String) (hu : u ≠ "") : truthy (some u) = true := by
  simp [truthy, hu]

theorem lookupCache_cons_self (c : List (String × String)) (q u : String) :
    lookupCache ((q, u) :: c) q = some u := by
  unfold lookupCache
  rw [List.find?_cons_of_pos _ (by simp)]

theorem getUrl_cached_eq (w : RemoteWorld) (st : SqsState) (q u : String)
    (hs : st.sqs = true) (hq : q ≠ "")
    (hc : lookupCache st.queueUrls q = some u) (hu : u ≠ "") :
    getUrl w st q = (.ok (some u), st, []) := by
  simp [getUrl, hs, hq, hc, truthy, hu]

theorem getUrl_notfound_eq (w : RemoteWorld) (st : SqsState) (q : String)
    (hs : st.sqs = true) (hq : q ≠ "")
    (hmiss : truthy (lookupCache st.queueUrls q) = false)
    (hrem : lookupCache w.queues q = none) :
    getUrl w st q =
      (.ok none, st,
        [Ev.lookup q, Ev.logE "debug" ("Queue " ++ q ++ " could not be found")]) := by
  simp [getUrl, hs, hq, hmiss, hrem]

theorem getUrl_fresh_hit_eq (w : RemoteWorld) (st : SqsState) (q u : String)
    (hs : st.sqs = true) (hq : q ≠ "")
    (hmiss : truthy (lookupCache st.queueUrls q) = false)
    (hrem : lookupCache w.queues q = some u) :
    getUrl w st q =
      (.ok (some u), { st with queueUrls := (q, u) :: st.queueUrls }, [Ev.lookup q]) := by
  simp [getUrl, hs, hq, hmiss, hrem]

/-! ### Claim theorems: Queue Directory (C7, C8, C10) -/

/-- C7: for a queue name whose first `getUrl` call succeeds, the handle is
cached: the first call issues exactly one remote lookup, and every
subsequent call returns the same handle with no remote lookup and no state
change. -/
theorem getUrl_caches_success (w : RemoteWorld) (st : SqsState) (q u : String)
    (hs : st.sqs = true) (hq : q ≠ "")
    (hmiss : truthy (lookupCache st.queueUrls q) = false)
    (hrem : lookupCache w.queues q = some u) (hu : u ≠ "") :
    getUrl w st q =
      (.ok (some u), { st with queueUrls := (q, u) :: st.queueUrls }, [Ev.lookup q]) ∧
    getUrl w { st with queueUrls := (q, u) :: st.queueUrls } q =
      (.ok (some u), { st with queueUrls := (q, u) :: st.queueUrls }, []) ∧
    ∀ n : Nat, iterGetUrl w q n { st with queueUrls := (q, u) :: st.queueUrls } =
      ({ st with queueUrls := (q, u) :: st.queueUrls }, []) := by
  have hcached := getUrl_cached_eq w { st with queueUrls := (q, u) :: st.queueUrls } q u
    hs hq (lookupCache_cons_self st.queueUrls q u) hu
  refine ⟨getUrl_fresh_hit_eq w st q u hs hq hmiss hrem, hcached, ?_⟩
  intro n
  induction n with
  | zero => rfl
  | succ m ih => simp [iterGetUrl, hcached, ih]

/-- C8: for a queue name that does not exist remotely, every `getUrl` call
returns null, emits a debug diagnostic, issues a remote lookup, and leaves
the state unchanged (the failure is never cached), so each of n repeated
calls re-queries the remote service: n lookups and n debug diagnostics. -/
theorem getUrl_no_negative_caching (w : RemoteWorld) (st : SqsState) (q : String)
    (hs : st.sqs = true) (hq : q ≠ "")
    (hmiss : truthy (lookupCache st.queueUrls q) = false)
    (hrem : lookupCache w.queues q = none) :
    getUrl w st q =
      (.ok none, st,
        [Ev.lookup q, Ev.logE "debug" ("Queue " ++ q ++ " could not be found")]) ∧
    ∀ n : Nat, iterGetUrl w q n st = (st,
      (List.replicate n
        [Ev.lookup q, Ev.logE "debug" ("Queue " ++ q ++ " could not be found")]).flatten) ∧
      ((iterGetUrl w q n st).2.countP isLookupEv = n ∧
       (iterGetUrl w q n st).2.countP
         (fun e => decide (e = Ev.logE "debug" ("Queue " ++ q ++ " could not be found"))) = n) := by
  have hnf := getUrl_notfound_eq w st q hs hq hmiss hrem
  refine ⟨hnf, ?_⟩
  intro n
  induction n with
  | zero => simp [iterGetUrl]
  | succ m ih =>
      have hit : iterGetUrl w q (m + 1) st = (st,
          [Ev.lookup q, Ev.logE "debug" ("Queue " ++ q ++ " could not be found")] ++
            (iterGetUrl w q m st).2) := by
        simp [iterGetUrl, hnf, ih.1]
      refine ⟨?_, ?_, ?_⟩
      · rw [hit, ih.1]
        simp [List.replicate_succ]
      · rw [hit]
        simp [List.countP_append, ih.2.1, isLookupEv, List.countP_cons]
      · rw [hit]
        simp [List.countP_append, ih.2.2, List.countP_cons]

/-- C10: `reset` only clears the client handle; the url cache is untouched,
so after `reset` followed by `init` a cached queue name still resolves from
the cache with no remote lookup. -/
theorem reset_preserves_cache (w : RemoteWorld) (st : SqsState) (q u : String)
    (hq : q ≠ "") (hc : lookupCache st.queueUrls q = some u) (hu : u ≠ "") :
    (reset st).queueUrls = st.queueUrls ∧ (reset st).sqs = false ∧
    (init (reset st)).queueUrls = st.queueUrls ∧
    getUrl w (init (reset st)) q = (.ok (some u), init (reset st), []) := by
  exact ⟨rfl, rfl, rfl, getUrl_cached_eq w (init (reset st)) q u rfl hq hc hu⟩

/-- Witness for C7 at a concrete input. -/
theorem getUrl_caches_success_witness :
    getUrl ⟨[("q", "u")]⟩ ⟨true, []⟩ "q" =
      (.ok (some "u"), ⟨true, [("q", "u")]⟩, [Ev.lookup "q"]) ∧
    iterGetUrl ⟨[("q", "u")]⟩ "q" 3 ⟨true, [("q", "u")]⟩ = (⟨true, [("q", "u")]⟩, []) := by
  have h := getUrl_caches_success ⟨[("q", "u")]⟩ ⟨true, []⟩ "q" "u" rfl (by decide)
    rfl rfl (by decide)
  exact ⟨h.1, h.2.2 3⟩

/-- Witness for C8 at a concrete input. -/
theorem getUrl_no_negative_caching_witness :
    getUrl ⟨[]⟩ ⟨true, []⟩ "q" =
      (.ok none, ⟨true, []⟩,
        [Ev.lookup "q", Ev.logE "debug" "Queue q could not be found"]) ∧
    (iterGetUrl ⟨[]⟩ "q" 2 ⟨true, []⟩).2.countP isLookupEv = 2 := by
  have h := getUrl_no_negative_caching ⟨[]⟩ ⟨true, []⟩ "q" rfl (by decide) rfl rfl
  exact ⟨h.1, (h.2 2).2.1⟩

/-- Witness for C10 at a concrete input. -/
theorem reset_preserves_cache_witness :
    (reset ⟨true, [("q", "u")]⟩).queueUrls = [("q", "u")] ∧
    getUrl ⟨[]⟩ (init (reset ⟨true, [("q", "u")]⟩)) "q" =
      (.ok (some "u"), init (reset ⟨true, [("q", "u")]⟩), []) := by
  have h := reset_preserves_cache ⟨[]⟩ ⟨true, [("q", "u")]⟩ "q" "u" (by decide) rfl (by decide)
  exact ⟨h.1, h.2.2.2⟩

/-! ### Claim theorems: Message Transport (C6, C5, C9) -/

/-- C6: when url resolution fails, `sendMessage` does not raise: the null
handle is passed through to the remote send call, while `receiveMessages`
and `deleteMessage` raise the queue-not-found error before issuing any
remote receive or delete. -/
theorem sendMessage_null_url_passthrough (w : RemoteWorld) (st : SqsState)
    (q body receiptHandle : String) (o : PollOptions) (raw : Option (List RawMsg))
    (hs : st.sqs = true) (hq : q ≠ "")
    (hmiss : truthy (lookupCache st.queueUrls q) = false)
    (hrem : lookupCache w.queues q = none) :
    (sendMessage w st q body).1 = .ok () ∧
    Ev.sendE none body ∈ (sendMessage w st q body).2.2 ∧
    (receiveMessages w st q o raw).1 = .error ("Unable to find SQS queue " ++ q) ∧
    (receiveMessages w st q o raw).2.2.countP isReceiveEv = 0 ∧
    (deleteMessage w st q receiptHandle).1 = .error ("Unable to find SQS queue " ++ q) ∧
    (deleteMessage w st q receiptHandle).2.2.countP isDeleteEv = 0 := by
  have hnf := getUrl_notfound_eq w st q hs hq hmiss hrem
  refine ⟨?_, ?_, ?_, ?_, ?_, ?_⟩
  · simp [sendMessage, hnf]
  · simp [sendMessage, hnf]
  · simp [receiveMessages, hnf]
  · simp [receiveMessages, hnf, isReceiveEv]
  · simp [deleteMessage, hnf]
  · simp [deleteMessage, hnf, isDeleteEv]

/-- Witness for C6 at a concrete input. -/
theorem sendMessage_null_url_passthrough_witness :
    (sendMessage ⟨[]⟩ ⟨true, []⟩ "q" "body").1 = .ok () ∧
    Ev.sendE none "body" ∈ (sendMessage ⟨[]⟩ ⟨true, []⟩ "q" "body").2.2 ∧
    (receiveMessages ⟨[]⟩ ⟨true, []⟩ "q" ⟨none, none, none⟩ none).1 =
      .error "Unable to find SQS queue q" ∧
    (deleteMessage ⟨[]⟩ ⟨true, []⟩ "q" "r").1 = .error "Unable to find SQS queue q" := by
  have h := sendMessage_null_url_passthrough ⟨[]⟩ ⟨true, []⟩ "q" "body" "r"
    ⟨none, none, none⟩ none rfl (by decide) rfl rfl
  exact ⟨h.1, h.2.1, h.2.2.1, h.2.2.2.2.1⟩

/-- Modelled from the spec claim C5, for comparison with the source: the
message count is maxMessages clamped into the range 1 to 10, absent
yielding 1. -/
def specClampMax (options : PollOptions) : Int :=
  max 1 (min 10 ((options.maxMessages).getD 1))

/-- Modelled from the spec claim C5, for comparison with the source: the
wait time is waitTimeSeconds clamped into the range 0 to 20, absent or zero
yielding 0. -/
def specClampWait (options : PollOptions) : Int :=
  max 0 (min 20 ((options.waitTimeSeconds).getD 0))

/-- Counterexample to C5: with maxMessages 15 and waitTimeSeconds 0 the
remote receive is issued with count 15 and wait 1 (the code substitutes the
default for falsy values only and never clamps), not the clamped 10 and 0
the claim requires. -/
theorem receive_params_unclamped_counterexample :
    receiveMessages ⟨[]⟩ ⟨true, [("q", "u")]⟩ "q"
        ⟨some 15, some 0, none⟩ none =
      (.ok [], ⟨true, [("q", "u")]⟩, [Ev.receiveE "u" 15 1]) ∧
    specClampMax ⟨some 15, some 0, none⟩ = 10 ∧
    specClampWait ⟨some 15, some 0, none⟩ = 0 ∧
    ((15 : Int), (1 : Int)) ≠ ((10 : Int), (0 : Int)) := by
  refine ⟨rfl, by decide, by decide, by decide⟩

/-- Amended C5: the remote receive request carries maxMessages unchanged
when truthy and 1 when absent or zero, and waitTimeSeconds unchanged when
truthy and 1 when absent or zero; no clamping is applied, and exactly one
remote receive is issued per call. -/
theorem receiveMessages_request_params (w : RemoteWorld) (st : SqsState)
    (q u : String) (o : PollOptions) (raw : Option (List RawMsg))
    (hs : st.sqs = true) (hq : q ≠ "")
    (hc : lookupCache st.queueUrls q = some u) (hu : u ≠ "") :
    Ev.receiveE u
        (match o.maxMessages with | some n => if n = 0 then 1 else n | none => 1)
        (match o.waitTimeSeconds with | some n => if n = 0 then 1 else n | none => 1)
      ∈ (receiveMessages w st q o raw).2.2 ∧
    (receiveMessages w st q o raw).2.2.countP isReceiveEv = 1 := by
  have hcached := getUrl_cached_eq w st q u hs hq hc hu
  have hmax : (match o.maxMessages with
      | some n => if n = 0 then 1 else n | none => (1 : Int)) = optMax o := rfl
  have hwait : (match o.waitTimeSeconds with
      | some n => if n = 0 then 1 else n | none => (1 : Int)) = optWait o := rfl
  rw [hmax, hwait]
  cases raw with
  | none =>
      constructor
      · simp [receiveMessages, hcached]
      · simp [receiveMessages, hcached, isReceiveEv]
  | some raws =>
      have hdec : ∀ l : List RawMsg, (decodeMessages l).2.countP isReceiveEv = 0 := by
        intro l
        induction l with
        | nil => rfl
        | cons m rest ih =>
            cases hb : jsonParse m.Body with
            | some b => simp [decodeMessages, hb, ih]
            | none => simp [decodeMessages, hb, List.countP_cons, isReceiveEv, ih]
      constructor
      · simp [receiveMessages, hcached]
      · simp [receiveMessages, hcached, List.countP_append, List.countP_cons,
          isReceiveEv, hdec raws]

/-- Witness for the amended C5 at a concrete input. -/
theorem receiveMessages_request_params_witness :
    Ev.receiveE "u" 7 20 ∈
      (receiveMessages ⟨[]⟩ ⟨true, [("q", "u")]⟩ "q"
        ⟨some 7, some 20, none⟩ none).2.2 ∧
    (receiveMessages ⟨[]⟩ ⟨true, [("q", "u")]⟩ "q"
        ⟨some 7, some 20, none⟩ none).2.2.countP isReceiveEv = 1 := by
  have h := receiveMessages_request_params ⟨[]⟩ ⟨true, [("q", "u")]⟩ "q" "u"
    ⟨some 7, some 20, none⟩ none rfl (by decide) rfl (by decide)
  exact ⟨h.1, h.2⟩

theorem mkUrl_ne_empty (q : String) : mkUrl q ≠ "" := by
  intro h
  have hlen := congrArg String.length h
  simp [mkUrl] at hlen
  exact absurd hlen.1 (by decide)

/-- C9: when a queue name already resolves, `createQueue` issues no remote
create, emits the "already exists" diagnostic, and returns the existing
handle; when the queue does not yet exist, two successive `createQueue`
calls with the same name issue exactly one remote create in total (the
second call resolves the now-existing queue and takes the already-exists
branch). -/
theorem createQueue_idempotent (w : RemoteWorld) (st : SqsState) (q u : String)
    (attrs : List (String × String)) (hs : st.sqs = true) (hq : q ≠ "") :
    (lookupCache st.queueUrls q = some u → u ≠ "" →
      createQueue w st q attrs =
        (.ok u, w, st,
          [Ev.logE "info" ("Creating SQS queue " ++ q),
           Ev.logE "info" ("SQS queue " ++ q ++ " already exists")])) ∧
    (truthy (lookupCache st.queueUrls q) = false → lookupCache w.queues q = none →
      createQueue w st q attrs =
        (.ok (mkUrl q), ⟨(q, mkUrl q) :: w.queues⟩, st,
          [Ev.logE "info" ("Creating SQS queue " ++ q),
           Ev.lookup q,
           Ev.logE "debug" ("Queue " ++ q ++ " could not be found"),
           Ev.createE q attrs,
           Ev.logE "info" ("Created SQS queue " ++ q)]) ∧
      createQueue ⟨(q, mkUrl q) :: w.queues⟩ st q attrs =
        (.ok (mkUrl q), ⟨(q, mkUrl q) :: w.queues⟩,
          { st with queueUrls := (q, mkUrl q) :: st.queueUrls },
          [Ev.logE "info" ("Creating SQS queue " ++ q),
           Ev.lookup q,
           Ev.logE "info" ("SQS queue " ++ q ++ " already exists")]) ∧
      (createQueue w st q attrs).2.2.2.countP isCreateEv = 1 ∧
      (createQueue ⟨(q, mkUrl q) :: w.queues⟩ st q attrs).2.2.2.countP isCreateEv = 0) := by
  constructor
  · intro hc hu
    have hcached := getUrl_cached_eq w st q u hs hq hc hu
    simp [createQueue, hcached, truthy, hu]
  · intro hmiss hrem
    have hnf := getUrl_notfound_eq w st q hs hq hmiss hrem
    have hfresh : getUrl ⟨(q, mkUrl q) :: w.queues⟩ st q =
        (.ok (some (mkUrl q)), { st with queueUrls := (q, mkUrl q) :: st.queueUrls },
          [Ev.lookup q]) :=
      getUrl_fresh_hit_eq ⟨(q, mkUrl q) :: w.queues⟩ st q (mkUrl q) hs hq hmiss
        (lookupCache_cons_self w.queues q (mkUrl q))
    have h1 : createQueue w st q attrs =
        (.ok (mkUrl q), ⟨(q, mkUrl q) :: w.queues⟩, st,
          [Ev.logE "info" ("Creating SQS queue " ++ q),
           Ev.lookup q,
           Ev.logE "debug" ("Queue " ++ q ++ " could not be found"),
           Ev.createE q attrs,
           Ev.logE "info" ("Created SQS queue " ++ q)]) := by
      simp [createQueue, hnf, truthy]
    have h2 : createQueue ⟨(q, mkUrl q) :: w.queues⟩ st q attrs =
        (.ok (mkUrl q), ⟨(q, mkUrl q) :: w.queues⟩,
          { st with queueUrls := (q, mkUrl q) :: st.queueUrls },
          [Ev.logE "info" ("Creating SQS queue " ++ q),
           Ev.lookup q,
           Ev.logE "info" ("SQS queue " ++ q ++ " already exists")]) := by
      simp [createQueue, hfresh, truthy, mkUrl_ne_empty q]
    refine ⟨h1, h2, ?_, ?_⟩
    · rw [h1]
      simp [List.countP_cons, isCreateEv]
    · rw [h2]
      simp [List.countP_cons, isCreateEv]

/-- Witness for C9 at a concrete input. -/
theorem createQueue_idempotent_witness :
    (createQueue ⟨[]⟩ ⟨true, []⟩ "q" []).2.2.2.countP isCreateEv = 1 ∧
    (createQueue ⟨[("q", mkUrl "q")]⟩ ⟨true, []⟩ "q" []).2.2.2.countP isCreateEv = 0 ∧
    createQueue ⟨[]⟩ ⟨true, [("q", "u")]⟩ "q" [] =
      (.ok "u", ⟨[]⟩, ⟨true, [("q", "u")]⟩,
        [Ev.logE "info" "Creating SQS queue q",
         Ev.logE "info" "SQS queue q already exists"]) := by
  have h := createQueue_idempotent ⟨[]⟩ ⟨true, []⟩ "q" "u" [] rfl (by decide)
  have h2 := createQueue_idempotent ⟨[]⟩ ⟨true, [("q", "u")]⟩ "q" "u" [] rfl (by decide)
  have hb := h.2 rfl rfl
  exact ⟨hb.2.2.1, hb.2.2.2, h2.1 rfl (by decide)⟩

/-! ### Helper lemmas for the polling engine -/

theorem receiveMessages_cached_some (w : RemoteWorld) (st : SqsState) (q u : String)
    (o : PollOptions) (raws : List RawMsg)
    (hs : st.sqs = true) (hq : q ≠ "")
    (hc : lookupCache st.queueUrls q = some u) (hu : u ≠ "") :
    receiveMessages w st q o (some raws) =
      (.ok (decodeMessages raws).1, st,
        Ev.receiveE u (optMax o) (optWait o) ::
          Ev.logE "debug" ("Received " ++ toString raws.length ++
            " message(s) from queue " ++ q) :: (decodeMessages raws).2) := by
  simp [receiveMessages, getUrl_cached_eq w st q u hs hq hc hu]

theorem receiveMessages_cached_none (w : RemoteWorld) (st : SqsState) (q u : String)
    (o : PollOptions)
    (hs : st.sqs = true) (hq : q ≠ "")
    (hc : lookupCache st.queueUrls q = some u) (hu : u ≠ "") :
    receiveMessages w st q o none =
      (.ok [], st, [Ev.receiveE u (optMax o) (optWait o)]) := by
  simp [receiveMessages, getUrl_cached_eq w st q u hs hq hc hu]

theorem promiseAll_msgVals (msgs : List Msg) :
    promiseAll (msgs.map JsItem.msgVal) = [] := by
  induction msgs with
  | nil => rfl
  | cons m rest ih =>
      simp [promiseAll]

theorem issueDeletes_cached (w : RemoteWorld) (st : SqsState) (q u : String)
    (hs : st.sqs = true) (hq : q ≠ "")
    (hc : lookupCache st.queueUrls q = some u) (hu : u ≠ "") :
    ∀ msgs : List Msg, issueDeletes w st q msgs =
      (st, msgs.map (fun m => Ev.deleteE u m.ReceiptHandle),
        msgs.map (fun m => m.ReceiptHandle)) := by
  intro msgs
  induction msgs with
  | nil => rfl
  | cons m rest ih =>
      have hd : deleteMessage w st q m.ReceiptHandle =
          (.ok (), st, [Ev.deleteE u m.ReceiptHandle]) := by
        simp [deleteMessage, getUrl_cached_eq w st q u hs hq hc hu]
      simp [issueDeletes, hd, ih]

theorem processMessages_resolved_cached (w : RemoteWorld) (st : SqsState)
    (q u : String) (handler : List Msg → HandlerOutcome) (msgs : List Msg) (v : JsVal)
    (hs : st.sqs = true) (hq : q ≠ "")
    (hc : lookupCache st.queueUrls q = some u) (hu : u ≠ "")
    (hres : handler msgs = .resolved v) :
    processMessages w st q handler msgs =
      { result := v, st := st,
        events := msgs.map (fun m => Ev.deleteE u m.ReceiptHandle),
        deletesIssued := msgs.map (fun m => m.ReceiptHandle),
        deletesAwaited := [] } := by
  simp [processMessages, hres, issueDeletes_cached w st q u hs hq hc hu,
    promiseAll_msgVals]

theorem processMessages_rejected (w : RemoteWorld) (st : SqsState) (q : String)
    (handler : List Msg → HandlerOutcome) (msgs : List Msg) (e : String)
    (hrej : handler msgs = .rejected e) :
    processMessages w st q handler msgs =
      { result := .jsUndefined, st := st, events := [Ev.logE "error" e],
        deletesIssued := [], deletesAwaited := [] } := by
  simp [processMessages, hrej]

theorem pollStep_rejected_eq (w : RemoteWorld) (st : SqsState) (q u : String)
    (handler : List Msg → HandlerOutcome) (o : PollOptions) (raws : List RawMsg) (e : String)
    (hs : st.sqs = true) (hq : q ≠ "")
    (hc : lookupCache st.queueUrls q = some u) (hu : u ≠ "")
    (hne : (decodeMessages raws).1 ≠ [])
    (hrej : handler (decodeMessages raws).1 = .rejected e) :
    pollStep w st q handler o (some raws) =
      { outcome := .ok .cont, st := st,
        events := Ev.receiveE u (optMax o) (optWait o) ::
          Ev.logE "debug" ("Received " ++ toString raws.length ++
            " message(s) from queue " ++ q) :: (decodeMessages raws).2 ++
          [Ev.logE "debug" ("Received " ++ toString (decodeMessages raws).1.length ++
            " message(s) on SQS queue " ++ q),
           Ev.logE "error" e],
        deletesIssued := [], deletesAwaited := [] } := by
  have hlen : 0 < (decodeMessages raws).1.length := List.length_pos.mpr hne
  simp [pollStep, receiveMessages_cached_some w st q u o raws hs hq hc hu, hlen,
    processMessages_rejected w st q handler (decodeMessages raws).1 e hrej]

theorem pollStep_resolved_eq (w : RemoteWorld) (st : SqsState) (q u : String)
    (handler : List Msg → HandlerOutcome) (o : PollOptions) (raws : List RawMsg) (v : JsVal)
    (hs : st.sqs = true) (hq : q ≠ "")
    (hc : lookupCache st.queueUrls q = some u) (hu : u ≠ "")
    (hne : (decodeMessages raws).1 ≠ [])
    (hres : handler (decodeMessages raws).1 = .resolved v) :
    pollStep w st q handler o (some raws) =
      { outcome := .ok (if v = JsVal.jsFalse then StepOut.stop else StepOut.cont),
        st := st,
        events := (Ev.receiveE u (optMax o) (optWait o) ::
          Ev.logE "debug" ("Received " ++ toString raws.length ++
            " message(s) from queue " ++ q) :: (decodeMessages raws).2 ++
          [Ev.logE "debug" ("Received " ++ toString (decodeMessages raws).1.length ++
            " message(s) on SQS queue " ++ q)] ++
          (decodeMessages raws).1.map (fun m => Ev.deleteE u m.ReceiptHandle)) ++
          (if v = JsVal.jsFalse then
            [Ev.logE "debug" ("Stopped polling SQS queue " ++ q)] else []),
        deletesIssued := (decodeMessages raws).1.map (fun m => m.ReceiptHandle),
        deletesAwaited := [] } := by
  have hlen : 0 < (decodeMessages raws).1.length := List.length_pos.mpr hne
  by_cases hv : v = JsVal.jsFalse
  · subst hv
    simp [pollStep, receiveMessages_cached_some w st q u o raws hs hq hc hu, hlen,
      processMessages_resolved_cached w st q u handler (decodeMessages raws).1
        JsVal.jsFalse hs hq hc hu hres]
  · simp [pollStep, receiveMessages_cached_some w st q u o raws hs hq hc hu, hlen,
      processMessages_resolved_cached w st q u handler (decodeMessages raws).1
        v hs hq hc hu hres, hv]

theorem pollStep_empty_eq (w : RemoteWorld) (st : SqsState) (q u : String)
    (handler : List Msg → HandlerOutcome) (o : PollOptions)
    (raw : Option (List RawMsg))
    (hs : st.sqs = true) (hq : q ≠ "")
    (hc : lookupCache st.queueUrls q = some u) (hu : u ≠ "")
    (hempty : raw = none ∨ ∃ raws, raw = some raws ∧ (decodeMessages raws).1 = []) :
    (pollStep w st q handler o raw).outcome =
      (if o.stopWhenDepleted = some true then .ok .stop else .ok .cont) ∧
    (pollStep w st q handler o raw).st = st ∧
    (pollStep w st q handler o raw).deletesIssued = [] ∧
    Ev.receiveE u (optMax o) (optWait o) ∈ (pollStep w st q handler o raw).events := by
  rcases hempty with h | ⟨raws, hr, hdec⟩
  · subst h
    by_cases hd : o.stopWhenDepleted = some true
    · simp [pollStep, receiveMessages_cached_none w st q u o hs hq hc hu, hd]
    · simp [pollStep, receiveMessages_cached_none w st q u o hs hq hc hu, hd]
  · subst hr
    by_cases hd : o.stopWhenDepleted = some true
    · simp [pollStep, receiveMessages_cached_some w st q u o raws hs hq hc hu, hdec, hd]
    · simp [pollStep, receiveMessages_cached_some w st q u o raws hs hq hc hu, hdec, hd]

theorem poll_cons_of_stop (w : RemoteWorld) (st : SqsState) (q : String)
    (handler : List Msg → HandlerOutcome) (o : PollOptions)
    (raw : Option (List RawMsg)) (rest : List (Option (List RawMsg)))
    (h : (pollStep w st q handler o raw).outcome = .ok .stop) :
    poll w st q handler o (raw :: rest) =
      some (.ok (), (pollStep w st q handler o raw).st,
        (pollStep w st q handler o raw).events) := by
  simp [poll, h]

theorem poll_cons_of_cont (w : RemoteWorld) (st : SqsState) (q : String)
    (handler : List Msg → HandlerOutcome) (o : PollOptions)
    (raw : Option (List RawMsg)) (rest : List (Option (List RawMsg)))
    (h : (pollStep w st q handler o raw).outcome = .ok .cont) :
    poll w st q handler o (raw :: rest) =
      match poll w (pollStep w st q handler o raw).st q handler o rest with
      | none => none
      | some x => some (x.1, x.2.1, (pollStep w st q handler o raw).events ++ x.2.2) := by
  simp only [poll, h]
  cases poll w (pollStep w st q handler o raw).st q handler o rest with
  | none => rfl
  | some x => rfl

theorem decodeMessages_receive_count (l : List RawMsg) :
    (decodeMessages l).2.countP isReceiveEv = 0 := by
  induction l with
  | nil => rfl
  | cons m rest ih =>
      cases hb : jsonParse m.Body with
      | some b => simp [decodeMessages, hb, ih]
      | none => simp [decodeMessages, hb, List.countP_cons, isReceiveEv, ih]

/-! ### Claim theorems: Polling Engine (C1, C2, C3, C4) -/

/-- C1: on a non-empty decoded batch whose handler rejects, the poll
iteration emits an error diagnostic, issues no delete, leaves the state
unchanged, and continues; consequently a handler that always rejects never
terminates the loop: `poll` is still looping when any stream of non-empty
batches runs out. -/
theorem poll_handler_failure_never_stops
    (w : RemoteWorld) (st : SqsState) (q u : String)
    (handler : List Msg → HandlerOutcome) (o : PollOptions)
    (hs : st.sqs = true) (hq : q ≠ "")
    (hc : lookupCache st.queueUrls q = some u) (hu : u ≠ "")
    (hrej : ∀ msgs : List Msg, msgs ≠ [] →
      ∃ e, handler msgs = HandlerOutcome.rejected e) :
    (∀ raws : List RawMsg, (decodeMessages raws).1 ≠ [] →
      (pollStep w st q handler o (some raws)).outcome = Except.ok StepOut.cont ∧
      (pollStep w st q handler o (some raws)).st = st ∧
      (pollStep w st q handler o (some raws)).deletesIssued = [] ∧
      ∃ e, Ev.logE "error" e ∈ (pollStep w st q handler o (some raws)).events) ∧
    (∀ rawsList : List (Option (List RawMsg)),
      (∀ r ∈ rawsList, ∃ l, r = some l ∧ (decodeMessages l).1 ≠ []) →
      poll w st q handler o rawsList = none) := by
  constructor
  · intro raws hne
    obtain ⟨e, he⟩ := hrej _ hne
    have heq := pollStep_rejected_eq w st q u handler o raws e hs hq hc hu hne he
    refine ⟨by rw [heq], by rw [heq], by rw [heq], e, ?_⟩
    rw [heq]
    simp
  · intro rawsList hall
    induction rawsList with
    | nil => rfl
    | cons r rest ih =>
        obtain ⟨l, hr, hne⟩ := hall r (List.mem_cons_self r rest)
        subst hr
        obtain ⟨e, he⟩ := hrej _ hne
        have heq := pollStep_rejected_eq w st q u handler o l e hs hq hc hu hne he
        have hcont : (pollStep w st q handler o (some l)).outcome =
            Except.ok StepOut.cont := by rw [heq]
        have hst : (pollStep w st q handler o (some l)).st = st := by rw [heq]
        rw [poll_cons_of_cont w st q handler o (some l) rest hcont, hst,
          ih (fun r2 hr2 => hall r2 (List.mem_cons_of_mem _ hr2))]

/-- Witness for C1 at a concrete input: an always-rejecting handler over a
stream of one non-empty batch leaves the poll still looping. -/
theorem poll_handler_failure_never_stops_witness :
    poll ⟨[("q", "u")]⟩ ⟨true, [("q", "u")]⟩ "q"
        (fun _ => HandlerOutcome.rejected "boom") ⟨none, none, none⟩
        [some [⟨"m1", "r1", WireBody.valid "b"⟩]] = none := by
  have h := poll_handler_failure_never_stops ⟨[("q", "u")]⟩ ⟨true, [("q", "u")]⟩
    "q" "u" (fun _ => HandlerOutcome.rejected "boom") ⟨none, none, none⟩
    rfl (by decide) rfl (by decide) (fun msgs _ => ⟨"boom", rfl⟩)
  refine h.2 _ ?_
  intro r hr
  simp at hr
  subst hr
  exact ⟨_, rfl, by decide⟩

/-- C2: when the handler resolves to the literal false on a non-empty
decoded batch, the iteration issues a delete for every message of the
batch, emits the stopped-polling debug diagnostic, and `poll` resolves with
exactly that iteration's trace — so exactly one remote receive is ever
issued, whatever batches would have followed; when the handler resolves to
any other value, the batch's deletes are likewise all issued and the loop
continues. -/
theorem poll_handler_false_stops_after_deleting_batch
    (w : RemoteWorld) (st : SqsState) (q u : String)
    (handler : List Msg → HandlerOutcome) (o : PollOptions) (raws : List RawMsg)
    (hs : st.sqs = true) (hq : q ≠ "")
    (hc : lookupCache st.queueUrls q = some u) (hu : u ≠ "")
    (hne : (decodeMessages raws).1 ≠ []) :
    (handler (decodeMessages raws).1 = HandlerOutcome.resolved JsVal.jsFalse →
      (pollStep w st q handler o (some raws)).deletesIssued =
        ((decodeMessages raws).1).map (fun m => m.ReceiptHandle) ∧
      Ev.logE "debug" ("Stopped polling SQS queue " ++ q) ∈
        (pollStep w st q handler o (some raws)).events ∧
      (∀ rest, poll w st q handler o (some raws :: rest) =
        some (Except.ok (), st, (pollStep w st q handler o (some raws)).events)) ∧
      (pollStep w st q handler o (some raws)).events.countP isReceiveEv = 1) ∧
    (∀ v : JsVal, v ≠ JsVal.jsFalse →
      handler (decodeMessages raws).1 = HandlerOutcome.resolved v →
      (pollStep w st q handler o (some raws)).outcome = Except.ok StepOut.cont ∧
      (pollStep w st q handler o (some raws)).deletesIssued =
        ((decodeMessages raws).1).map (fun m => m.ReceiptHandle)) := by
  constructor
  · intro hres
    have heq := pollStep_resolved_eq w st q u handler o raws JsVal.jsFalse
      hs hq hc hu hne hres
    have hstop : (pollStep w st q handler o (some raws)).outcome =
        Except.ok StepOut.stop := by
      rw [heq]
      simp
    have hst : (pollStep w st q handler o (some raws)).st = st := by rw [heq]
    refine ⟨by rw [heq], ?_, ?_, ?_⟩
    · rw [heq]
      simp
    · intro rest
      rw [poll_cons_of_stop w st q handler o (some raws) rest hstop, hst]
    · rw [heq]
      simp [List.countP_append, List.countP_cons, List.countP_map, isReceiveEv,
        decodeMessages_receive_count, Function.comp]
  · intro v hv hres
    have heq := pollStep_resolved_eq w st q u handler o raws v hs hq hc hu hne hres
    constructor
    · rw [heq]
      simp [hv]
    · rw [heq]

/-- Witness for C2 at a concrete input: a handler returning false on the
first of two available batches resolves the poll after one receive and one
delete. -/
theorem poll_handler_false_stops_witness :
    (pollStep ⟨[("q", "u")]⟩ ⟨true, [("q", "u")]⟩ "q"
        (fun _ => HandlerOutcome.resolved JsVal.jsFalse) ⟨none, none, none⟩
        (some [⟨"m1", "r1", WireBody.valid "b"⟩])).deletesIssued = ["r1"] ∧
    poll ⟨[("q", "u")]⟩ ⟨true, [("q", "u")]⟩ "q"
        (fun _ => HandlerOutcome.resolved JsVal.jsFalse) ⟨none, none, none⟩
        [some [⟨"m1", "r1", WireBody.valid "b"⟩],
         some [⟨"m2", "r2", WireBody.valid "b"⟩]] =
      some (Except.ok (), ⟨true, [("q", "u")]⟩,
        (pollStep ⟨[("q", "u")]⟩ ⟨true, [("q", "u")]⟩ "q"
          (fun _ => HandlerOutcome.resolved JsVal.jsFalse) ⟨none, none, none⟩
          (some [⟨"m1", "r1", WireBody.valid "b"⟩])).events) ∧
    (pollStep ⟨[("q", "u")]⟩ ⟨true, [("q", "u")]⟩ "q"
        (fun _ => HandlerOutcome.resolved JsVal.jsFalse) ⟨none, none, none⟩
        (some [⟨"m1", "r1", WireBody.valid "b"⟩])).events.countP isReceiveEv = 1 := by
  have h := poll_handler_false_stops_after_deleting_batch ⟨[("q", "u")]⟩
    ⟨true, [("q", "u")]⟩ "q" "u" (fun _ => HandlerOutcome.resolved JsVal.jsFalse)
    ⟨none, none, none⟩ [⟨"m1", "r1", WireBody.valid "b"⟩]
    rfl (by decide) rfl (by decide) (by decide)
  have h1 := h.1 rfl
  exact ⟨h1.1.trans rfl, h1.2.2.1 _, h1.2.2.2⟩

/-- C3, evaluated at the failing input: `processMessages` with a resolved
handler issues a remote delete for every message of the batch but awaits
none of them before its promise resolves — the source awaits
`Promise.all(messages)` (the plain message objects) instead of the
`promises` array it built, so the next iteration's receive is not sequenced
after the deletes' completion. -/
theorem processMessages_deletes_issued_never_awaited :
    (processMessages ⟨[("q", "u")]⟩ ⟨true, [("q", "u")]⟩ "q"
        (fun _ => HandlerOutcome.resolved (JsVal.jsOther "ok"))
        [⟨"r1", "b1"⟩, ⟨"r2", "b2"⟩]).deletesIssued = ["r1", "r2"] ∧
    (processMessages ⟨[("q", "u")]⟩ ⟨true, [("q", "u")]⟩ "q"
        (fun _ => HandlerOutcome.resolved (JsVal.jsOther "ok"))
        [⟨"r1", "b1"⟩, ⟨"r2", "b2"⟩]).deletesAwaited = [] :=
  ⟨rfl, rfl⟩

/-- C4: on an iteration whose decoded batch is empty, `poll` resolves when
stopWhenDepleted is the literal true, and otherwise continues from the same
state with the same options — the next receive, when one happens, carries
the identical request parameters. -/
theorem poll_empty_batch_policy (w : RemoteWorld) (st : SqsState) (q u : String)
    (handler : List Msg → HandlerOutcome) (o : PollOptions)
    (raw : Option (List RawMsg))
    (hs : st.sqs = true) (hq : q ≠ "")
    (hc : lookupCache st.queueUrls q = some u) (hu : u ≠ "")
    (hempty : raw = none ∨ ∃ raws, raw = some raws ∧ (decodeMessages raws).1 = []) :
    (o.stopWhenDepleted = some true →
      (pollStep w st q handler o raw).outcome = Except.ok StepOut.stop ∧
      ∀ rest, poll w st q handler o (raw :: rest) =
        some (Except.ok (), st, (pollStep w st q handler o raw).events)) ∧
    (o.stopWhenDepleted ≠ some true →
      (pollStep w st q handler o raw).outcome = Except.ok StepOut.cont ∧
      (pollStep w st q handler o raw).st = st ∧
      Ev.receiveE u (optMax o) (optWait o) ∈ (pollStep w st q handler o raw).events ∧
      ∀ rest, poll w st q handler o (raw :: rest) =
        match poll w st q handler o rest with
        | none => none
        | some x => some (x.1, x.2.1, (pollStep w st q handler o raw).events ++ x.2.2)) := by
  obtain ⟨hout, hst, hdel, hmem⟩ :=
    pollStep_empty_eq w st q u handler o raw hs hq hc hu hempty
  constructor
  · intro hd
    rw [hd] at hout
    simp only [if_pos rfl] at hout
    exact ⟨hout, fun rest => by
      rw [poll_cons_of_stop w st q handler o raw rest hout, hst]⟩
  · intro hd
    rw [if_neg hd] at hout
    refine ⟨hout, hst, hmem, fun rest => ?_⟩
    rw [poll_cons_of_cont w st q handler o raw rest hout, hst]

/-- Witness for C4 at concrete inputs: with stopWhenDepleted true an empty
receive resolves the poll; without it the loop continues. -/
theorem poll_empty_batch_policy_witness :
    poll ⟨[("q", "u")]⟩ ⟨true, [("q", "u")]⟩ "q"
        (fun _ => HandlerOutcome.resolved JsVal.jsUndefined) ⟨none, none, some true⟩
        [none] =
      some (Except.ok (), ⟨true, [("q", "u")]⟩,
        (pollStep ⟨[("q", "u")]⟩ ⟨true, [("q", "u")]⟩ "q"
          (fun _ => HandlerOutcome.resolved JsVal.jsUndefined) ⟨none, none, some true⟩
          none).events) ∧
    (pollStep ⟨[("q", "u")]⟩ ⟨true, [("q", "u")]⟩ "q"
        (fun _ => HandlerOutcome.resolved JsVal.jsUndefined) ⟨none, none, none⟩
        none).outcome = Except.ok StepOut.cont := by
  have hA := poll_empty_batch_policy ⟨[("q", "u")]⟩ ⟨true, [("q", "u")]⟩ "q" "u"
    (fun _ => HandlerOutcome.resolved JsVal.jsUndefined) ⟨none, none, some true⟩
    none rfl (by decide) rfl (by decide) (Or.inl rfl)
  have hB := poll_empty_batch_policy ⟨[("q", "u")]⟩ ⟨true, [("q", "u")]⟩ "q" "u"
    (fun _ => HandlerOutcome.resolved JsVal.jsUndefined) ⟨none, none, none⟩
    none rfl (by decide) rfl (by decide) (Or.inl rfl)
  exact ⟨(hA.1 rfl).2 [], (hB.2 (by decide)).1⟩

end Sqs
